import Mathlib

/-!
Verification of the neptune interface utilities.

Shallow embedding of:
* `src/neptune/interface/utilities/pub_sub_utilities.py`
  (`TestSubscriber.run` frame-log writer, `TestPublisher.run` replay engine,
   `TestPublisher.getMessageCount`, `TestDecoder._decode_plf` frame-log decoder);
* `src/neptune/interface/utilities/proto_utilities.py`
  (`ProtoParser._parse_proto`, `_parse_message`, `_get_parameter`, `get_socket`,
   and the module-level regular expressions `MESSAGE_BLOCK`, `MESSAGE_DEF`);
* `src/neptune/alpaca/api_types.py` (`ApiMessage.__getattr__`).

Bytes are modelled as `Nat` (each `< 256` on real data), text as `List Char`,
Python float arithmetic on the small exact values appearing here as `ℚ`.
-/

set_option maxRecDepth 4000

namespace Neptune

/-! ## Byte-level framing (`TestSubscriber.run` writes, both readers read) -/

/-- `int.from_bytes(bs, byteorder='big', signed=False)`: big-endian value of a
byte string (the empty string gives 0, a 1-byte read gives that byte). -/
def intFromBytesBE (bs : List Nat) : Nat :=
  bs.foldl (fun a b => a * 256 + b) 0

/-- `n.to_bytes(2, byteorder='big', signed=False)`.  For `n ≤ 65535` this is the
exact Python result; for larger `n` Python raises `OverflowError`, a case that is
excluded by hypothesis wherever this definition is used. -/
def intToBytes2BE (n : Nat) : List Nat :=
  [n / 256 % 256, n % 256]

/-- One log frame as written by `TestSubscriber.run`: the 2-byte big-endian
payload length followed by the payload bytes. -/
def frameBytes (msg : List Nat) : List Nat :=
  intToBytes2BE msg.length ++ msg

/-- File contents after the writer appends each payload in order. -/
def encodeFrames (msgs : List (List Nat)) : List Nat :=
  msgs.foldr (fun m acc => frameBytes m ++ acc) []

/-! ## `TestDecoder._decode_plf` frame loop

The loop reads a 2-byte size, stops on 0 (which is also what `int.from_bytes`
returns at EOF), reads that many bytes and tries to parse them; a parse failure
is logged and skipped.  `parse` abstracts `ParseFromString` + `MessageToDict`
(protobuf library code, external to this repository).  The `fuel` argument is
only a structural-recursion bound: each loop iteration consumes at least 3 bytes
of input, so `fuel = s.length` always suffices. -/
def decodePlfGo {α : Type} (parse : List Nat → Option α) : Nat → List Nat → List α
  | 0, _ => []
  | fuel + 1, s =>
    if intFromBytesBE (s.take 2) = 0 then []
    else
      match parse ((s.drop 2).take (intFromBytesBE (s.take 2))) with
      | some r => r :: decodePlfGo parse fuel ((s.drop 2).drop (intFromBytesBE (s.take 2)))
      | none => decodePlfGo parse fuel ((s.drop 2).drop (intFromBytesBE (s.take 2)))

/-- `TestDecoder._decode_plf` applied to the raw contents of a `.plf` file. -/
def decodePlf {α : Type} (parse : List Nat → Option α) (s : List Nat) : List α :=
  decodePlfGo parse s.length s

/-! ## `TestPublisher.run` replay loop and message counter

The loop publishes the current message on topic `proto_obj.sym`, reads the next
size (stopping on 0/EOF), parses the next message, optionally sleeps, and
increments `self._count`.  Note the first published message is never counted.
`sym` abstracts the protobuf `sym` field accessor; the published payload is the
re-serialized message, byte-identical to the stored frame for well-formed
frames.  `fuel` is a structural bound as in `decodePlfGo`. -/
def replayGoF (sym : List Nat → List Char) :
    Nat → List Nat → List Nat → Nat → List (List Char × List Nat) × Nat
  | 0, cur, _, count => ([(sym cur, cur)], count)
  | fuel + 1, cur, s, count =>
    if intFromBytesBE (s.take 2) = 0 then ([(sym cur, cur)], count)
    else
      let res := replayGoF sym fuel ((s.drop 2).take (intFromBytesBE (s.take 2)))
        ((s.drop 2).drop (intFromBytesBE (s.take 2))) (count + 1)
      ((sym cur, cur) :: res.1, res.2)

/-- Main loop of `TestPublisher.run`, started after the first frame is read. -/
def replayGo (sym : List Nat → List Char) (cur : List Nat) (s : List Nat)
    (count : Nat) : List (List Char × List Nat) × Nat :=
  replayGoF sym s.length cur s count

/-- `TestPublisher.run` on a whole file: read the first message, enter the loop.
Returns the published `(topic, payload)` list and the final `self._count`. -/
def replayRun (sym : List Nat → List Char) (file : List Nat) :
    List (List Char × List Nat) × Nat :=
  replayGo sym ((file.drop 2).take (intFromBytesBE (file.take 2)))
    ((file.drop 2).drop (intFromBytesBE (file.take 2))) 0

/-- `TestPublisher.getMessageCount`: returns the count and resets it to 0.
Modelled as `count ↦ (returned value, new count)`. -/
def getMessageCount (count : Nat) : Nat × Nat := (count, 0)

/-! ## Replay inter-frame pause (`TestPublisher.run`, lines 184-186)

`sleep_time = max(0.1, t_current - t_prev) / 1000`; the engine calls
`time.sleep(sleep_time / self._rate)` only when `sleep_time > 2`.  Header times
are integer milliseconds; all arithmetic on them is exact, modelled in `ℚ`.
Returns the number of seconds actually slept before publishing the next
frame (0 when no `time.sleep` call happens). -/
def replaySleep (tPrev tCurrent : ℤ) (rate : ℚ) : ℚ :=
  if 2 < max (1 / 10 : ℚ) ((tCurrent : ℚ) - (tPrev : ℚ)) / 1000 then
    (max (1 / 10 : ℚ) ((tCurrent : ℚ) - (tPrev : ℚ)) / 1000) / rate
  else 0

/-! ## `TestSubscriber.run` as a state machine

The loop body is one `try/except`: receive + parse, lazily open the log file,
write the length-prefixed frame, flush.  The handler does
`logger.warning(e); fp.flush(); fp.close()`.  Python semantics modelled
faithfully:
* if `fp` is still `None` when the handler runs, `fp.flush()` raises
  `AttributeError`, which propagates and kills the thread;
* if `fp` is already closed, `fp.write`/`fp.flush` raise `ValueError`; a
  `ValueError` raised inside the handler also kills the thread;
* a closed file object is truthy, so `if not fp:` never reopens the file.

An event is either a successfully received+parsed message (whose writes all
succeed) or an exception raised inside the `try` body (receive, parse, open or
write failure). -/

structure WriterHandle where
  closed : Bool
deriving DecidableEq

structure WriterState where
  fp : Option WriterHandle
  contents : List Nat
  alive : Bool
deriving DecidableEq

inductive RecvEvent where
  | msg (payload : List Nat)
  | err
deriving DecidableEq

/-- The `except` block: `fp.flush(); fp.close()`. -/
def handleWriteExc (s : WriterState) : WriterState :=
  match s.fp with
  | none => { s with alive := false }
  | some h => if h.closed then { s with alive := false } else { s with fp := some ⟨true⟩ }

/-- One iteration of the `while True` loop of `TestSubscriber.run`. -/
def writerStep (s : WriterState) (e : RecvEvent) : WriterState :=
  if s.alive = false then s
  else
    match e with
    | .err => handleWriteExc s
    | .msg m =>
      match s.fp with
      | none => { fp := some ⟨false⟩, contents := s.contents ++ frameBytes m, alive := true }
      | some h =>
        if h.closed then handleWriteExc s
        else { s with contents := s.contents ++ frameBytes m }

def writerInit : WriterState := ⟨none, [], true⟩

/-- The writer thread processing a finite sequence of events. -/
def writerRun (es : List RecvEvent) : WriterState :=
  es.foldl writerStep writerInit

/-! ## `ProtoParser` schema-text parsing

The Python code drives everything with three regular expressions:
* `MESSAGE_BLOCK = /*(.*?});?` (DOTALL) — `re.findall` cuts the text into
  chunks ending at each `\x7d`, stripping a leading run of `/` and an optional
  trailing `;` between chunks; chunks after the last `\x7d` are dropped;
* `MESSAGE_DEF = message\s+(\w+)\s+\x7b(.*?)\\x7d` — first match gives the
  declared type name;
* the `_get_parameter` pattern `@token\s+([^@*]*)`.

These are modelled below as deterministic scanners over `List Char` (the
patterns involved are backtracking-free on disjoint character classes, so the
leftmost-match semantics is exactly first-position-that-matches).  Character
classes `\s`/`\w` are taken in their ASCII meaning, which covers the `.proto`
schema texts involved. -/

/-- Python regex `\s` (ASCII). -/
def wsChar (c : Char) : Bool :=
  c = ' ' || c = '\t' || c = '\n' || c = '\r' || c = '\x0b' || c = '\x0c'

/-- Python regex `\w` (ASCII). -/
def wordChar (c : Char) : Bool :=
  c.isAlpha || c.isDigit || c = '_'

/-- If `pat` is a literal prefix of `s`, return the remainder. -/
def stripPref : List Char → List Char → Option (List Char)
  | [], s => some s
  | _ :: _, [] => none
  | p :: ps, c :: cs => if p = c then stripPref ps cs else none

/-- Python `pat in s` substring test. -/
def isSubstr (pat : List Char) : List Char → Bool
  | [] => (stripPref pat []).isSome
  | c :: cs => (stripPref pat (c :: cs)).isSome || isSubstr pat cs

/-- `MESSAGE_BLOCK.findall(raw_txt)` as a character scanner.  `acc` is the
current chunk (reversed); a leading `/`-run of each chunk is consumed by the
`/*` part of the pattern (skipped while `acc` is empty), each chunk ends at the
next `\x7d` (inclusive, the capture group), and `;?` consumes one `;` right
after it.  Input ending before a `\x7d` yields no further match. -/
def msgBlocksGo (acc : List Char) : List Char → List (List Char)
  | [] => []
  | c :: rest =>
    if c = '\x7d' then
      (acc.reverse ++ ['\x7d']) ::
        (match rest with
         | ';' :: t => msgBlocksGo [] t
         | t => msgBlocksGo [] t)
    else if acc.isEmpty && c = '/' then msgBlocksGo [] rest
    else msgBlocksGo (c :: acc) rest

/-- The list `messages = MESSAGE_BLOCK.findall(raw_txt)`. -/
def msgBlocks (s : List Char) : List (List Char) :=
  msgBlocksGo [] s

/-- Attempt of the `_get_parameter` pattern `@token\s+([^@*]*)` anchored at the
start of `s`: literal `@token`, at least one whitespace, then the greedy
(possibly empty) run of characters other than `@` and `*`. -/
def matchParamAt (token : List Char) (s : List Char) : Option (List Char) :=
  match stripPref ('@' :: token) s with
  | none => none
  | some r =>
    if (r.takeWhile wsChar).isEmpty then none
    else some ((r.dropWhile wsChar).takeWhile (fun c => !(c = '@' || c = '*')))

/-- Leftmost match of the `_get_parameter` pattern (group 1), `none` when
`re.findall` returns no match and `[0]` raises `IndexError`. -/
def findParamRaw (token : List Char) : List Char → Option (List Char)
  | [] => matchParamAt token []
  | c :: cs =>
    match matchParamAt token (c :: cs) with
    | some g => some g
    | none => findParamRaw token cs

/-- Python `str.strip()` (whitespace from both ends). -/
def stripEnds (s : List Char) : List Char :=
  ((s.dropWhile wsChar).reverse.dropWhile wsChar).reverse

/-- `re.sub(r'\s+', ' ', data)`: every maximal whitespace run becomes one
space.  `prevWs` records whether the previous character was part of a run. -/
def collapseWsGo : Bool → List Char → List Char
  | _, [] => []
  | prevWs, c :: cs =>
    if wsChar c then
      if prevWs then collapseWsGo true cs else ' ' :: collapseWsGo true cs
    else c :: collapseWsGo false cs

def collapseWs (s : List Char) : List Char :=
  collapseWsGo false s

/-- `ProtoParser._get_parameter(input, token)`: leftmost match of
`@token\s+([^@*]*)`, then `.strip()`, `.replace('\n', '')`, and whitespace
collapse; `none` models the uncaught `IndexError` when there is no match. -/
def getParameter (input : List Char) (token : List Char) : Option (List Char) :=
  (findParamRaw token input).map
    (fun g => collapseWs ((stripEnds g).filter (fun c => c ≠ '\n')))

/-- Attempt of `MESSAGE_DEF` anchored at the start of `s`: literal `message`,
whitespace⁺, word-characters⁺ (the captured type name), whitespace⁺, `\x7b`,
then lazily anything up to a later `\x7d`.  Returns the type name. -/
def matchDefAt (s : List Char) : Option (List Char) :=
  match stripPref ['m', 'e', 's', 's', 'a', 'g', 'e'] s with
  | none => none
  | some r =>
    if (r.takeWhile wsChar).isEmpty then none
    else
      let r1 := r.dropWhile wsChar
      if (r1.takeWhile wordChar).isEmpty then none
      else
        let r2 := r1.dropWhile wordChar
        if (r2.takeWhile wsChar).isEmpty then none
        else
          match r2.dropWhile wsChar with
          | '\x7b' :: rest =>
            if rest.contains '\x7d' then some (r1.takeWhile wordChar) else none
          | _ => none

/-- `MESSAGE_DEF.findall(input)[0][0]`: type name of the leftmost message
definition, `none` when `[0]` would raise `IndexError`. -/
def firstMsgDef : List Char → Option (List Char)
  | [] => none
  | c :: cs =>
    match matchDefAt (c :: cs) with
    | some n => some n
    | none => firstMsgDef cs

/-- One value of `ProtoParser.message_dict` (field-descriptor parsing by
`_parse_fields` is not invoked by `_parse_message` and is not modelled). -/
structure SchemaEntry where
  Name : List Char
  Port : List Char
  Channel : List Char
  Summary : List Char
deriving DecidableEq

def tokMessage : List Char := "message".toList
def tokPort : List Char := "port".toList
def tokChannel : List Char := "channel".toList
def tokSummary : List Char := "summary".toList

/-- Marker `"@message" in m` used by `_parse_proto` to select blocks. -/
def markerTok : List Char := "@message".toList

/-- `ProtoParser._parse_message`: extract the four `@`-parameters and the type
name; `none` models the uncaught `IndexError` on any missing piece. -/
def parseMessage (input : List Char) : Option (List Char × SchemaEntry) :=
  match getParameter input tokMessage, getParameter input tokPort,
        getParameter input tokChannel, getParameter input tokSummary,
        firstMsgDef input with
  | some message, some port, some channel, some summary, some tname =>
    some (tname, ⟨message, port, channel, summary⟩)
  | _, _, _, _, _ => none

/-- `ProtoParser.message_dict`, as an insertion-ordered association list with
unique keys (Python `dict` semantics). -/
abbrev SchemaDict := List (List Char × SchemaEntry)

/-- `self.message_dict[type_name] = entry`: overwrite in place or append. -/
def dictInsert (d : SchemaDict) (k : List Char) (v : SchemaEntry) : SchemaDict :=
  if d.any (fun p => p.1 == k) then
    d.map (fun p => if p.1 == k then (k, v) else p)
  else d ++ [(k, v)]

/-- The `for m in messages` loop of `_parse_proto`: blocks without the marker
are skipped; a parse failure in a marked block aborts construction (`none`). -/
def parseBlocks : List (List Char) → SchemaDict → Option SchemaDict
  | [], d => some d
  | b :: bs, d =>
    if isSubstr markerTok b then
      match parseMessage b with
      | none => none
      | some te => parseBlocks bs (dictInsert d te.1 te.2)
    else parseBlocks bs d

/-- `ProtoParser._parse_proto` on the raw schema text (registry construction).
`none` models an uncaught exception escaping `ProtoParser.__init__`. -/
def parseProto (s : List Char) : Option SchemaDict :=
  parseBlocks (msgBlocks s) []

/-- `ProtoParser.lookup`: `self.message_dict.get(message, None)`. -/
def lookupMsg (d : SchemaDict) (message : List Char) : Option SchemaEntry :=
  (d.find? (fun p => p.1 == message)).map (fun p => p.2)

/-- The parsed results of the marked blocks, in block order:
what `message_dict` holds whenever all marked blocks parse and their type
names are pairwise distinct. -/
def markedParses (bs : List (List Char)) : List (List Char × SchemaEntry) :=
  (bs.filter (fun b => isSubstr markerTok b)).filterMap parseMessage

/-- `"...".isdigit()`-style check: the claim's "Port parses as an integer" is
modelled as a nonempty all-decimal-digit string (accepted by Python `int`). -/
def isNatStr (s : List Char) : Bool :=
  !s.isEmpty && s.all (fun c => c.isDigit)

/-! ## `ProtoParser.get_socket`

ZMQ socket objects are external; what the function decides per the source is:
whether a socket is returned at all (`None` on unknown message type, after
logging an error — no exception), whether it binds or connects, on which port,
and whether it subscribes to all topics. -/

structure SocketInfo where
  port : List Char
  isSub : Bool
  isBound : Bool
  subscribedAll : Bool
deriving DecidableEq

/-- `ProtoParser.get_socket(message, sub, bind)` given a built registry. -/
def getSocket (d : SchemaDict) (message : List Char) (sub : Bool) (bind : Bool) :
    Option SocketInfo :=
  match lookupMsg d message with
  | some e => some ⟨e.Port, sub, bind, sub⟩
  | none => none

/-! ## `ApiMessage.__getattr__` (`src/neptune/alpaca/api_types.py`)

JSON-ish broker payload values.  Python floats only appear here as results of
`float(...)` on the small decimal literals of API payloads, modelled exactly
in `ℚ`. -/

inductive PyVal where
  | pynone
  | pybool (b : Bool)
  | pyint (n : ℤ)
  | pyfloat (q : ℚ)
  | pystr (s : List Char)
  | pylist (l : List PyVal)

/-- Python truthiness of a payload value. -/
def truthy : PyVal → Bool
  | .pynone => false
  | .pybool b => b
  | .pyint n => n != 0
  | .pyfloat q => q != 0
  | .pystr s => !s.isEmpty
  | .pylist l => !l.isEmpty

def digitsToNat (s : List Char) : Nat :=
  s.foldl (fun a c => a * 10 + (c.toNat - 48)) 0

/-- Python `float(string)` on the literal forms occurring in broker payloads:
optional sign, digits with at most one decimal point, at least one digit.
(The exotic accepted forms — surrounding whitespace, exponents, `inf`, `nan` —
do not occur in the payload fields modelled here.)  `none` is `ValueError`. -/
def strFloat? (s : List Char) : Option ℚ :=
  let signed : ℚ × List Char :=
    match s with
    | '-' :: r => (-1, r)
    | '+' :: r => (1, r)
    | r => (1, r)
  let ip := signed.2.takeWhile (fun c => c.isDigit)
  let rest := signed.2.dropWhile (fun c => c.isDigit)
  match rest with
  | [] => if ip.isEmpty then none else some (signed.1 * digitsToNat ip)
  | '.' :: fr =>
    if fr.all (fun c => c.isDigit) && (!ip.isEmpty || !fr.isEmpty) then
      some (signed.1 * ((digitsToNat ip : ℚ) + (digitsToNat fr : ℚ) / ((10 : ℚ) ^ fr.length)))
    else none
  | _ => none

/-- Outcome of Python `float(value)`. -/
inductive ConvRes where
  | ok (q : ℚ)
  | valueError
  | typeError
deriving DecidableEq

/-- Python `float(value)` per value kind: numbers convert, strings parse or
raise `ValueError`, `None` and containers raise `TypeError`. -/
def floatConv : PyVal → ConvRes
  | .pyint n => .ok n
  | .pyfloat q => .ok q
  | .pybool b => .ok (if b then 1 else 0)
  | .pystr s => match strFloat? s with | some q => .ok q | none => .valueError
  | .pynone => .typeError
  | .pylist _ => .typeError

/-- Result of an attribute access: a value, `pd.to_datetime(value)` (pandas is
external, modelled as a tag on the raw value), or an uncaught exception. -/
inductive AttrResult where
  | ok (v : PyVal)
  | timestamp (v : PyVal)
  | keyError
  | typeError

/-- Python `name[-3:] == "_at"` (slice of a short string is the whole string). -/
def endsWithAt (name : List Char) : Bool :=
  name.drop (name.length - 3) == ['_', 'a', 't']

def isPyBool : PyVal → Bool
  | .pybool _ => true
  | _ => false

/-- `ApiMessage.__getattr__(self, name)` with `raw = self._raw`:
`value = self._raw[name]` (KeyError if absent); falsy values returned as-is;
`_at`-suffixed names parsed as timestamps; otherwise non-bool values are
passed through `float`, keeping the original on `ValueError` — but a
`TypeError` from `float` (e.g. on a list) propagates uncaught. -/
def apiGetattr (raw : List (List Char × PyVal)) (name : List Char) : AttrResult :=
  match raw.find? (fun p => p.1 == name) with
  | none => .keyError
  | some p =>
    if truthy p.2 then
      if endsWithAt name then .timestamp p.2
      else if isPyBool p.2 then .ok p.2
      else
        match floatConv p.2 with
        | .ok q => .ok (.pyfloat q)
        | .valueError => .ok p.2
        | .typeError => .typeError
    else .ok p.2

/-! ## Concrete schema texts used by witnesses and counterexamples -/

/-- One annotated (marked) block and one unmarked message block. -/
def c3text : List Char :=
  ("/* @message A msg\n@port 7\n@channel c\n@summary s\n*/\nmessage A \x7b int32 a = 1; \x7d\nmessage B \x7b int32 b = 1; \x7d").toList

/-- Two marked blocks with the same declared type name `A` and a non-integer
`@port` value. -/
def c3bad : List Char :=
  ("/* @message A\n@port xyz\n@channel c\n@summary s\n*/\nmessage A \x7b int32 a = 1; \x7d\n/* @message A2\n@port xyz\n@channel d\n@summary t\n*/\nmessage A \x7b int32 a = 1; \x7d").toList

/-- A marked block with no `@port` parameter. -/
def c4text : List Char :=
  ("/* @message A\n@channel c\n@summary s\n*/\nmessage A \x7b int32 a = 1; \x7d").toList

/-- The first block of `c4text` as produced by `MESSAGE_BLOCK` (leading `/`
stripped). -/
def c4block : List Char :=
  ("* @message A\n@channel c\n@summary s\n*/\nmessage A \x7b int32 a = 1; \x7d").toList

/-- Two marked blocks with distinct type names but the same `@port` value. -/
def c8text : List Char :=
  ("/* @message A\n@port 7\n@channel c\n@summary s\n*/\nmessage A \x7b int32 a = 1; \x7d\n/* @message B\n@port 7\n@channel d\n@summary t\n*/\nmessage B \x7b int32 b = 1; \x7d").toList

/-! # Theorems -/

/-! ## Framing helper lemmas -/

theorem encodeFrames_cons (m : List Nat) (ms : List (List Nat)) :
    encodeFrames (m :: ms) = frameBytes m ++ encodeFrames ms := rfl

theorem frame_take (m rest : List Nat) (h2 : m.length ≤ 65535) :
    intFromBytesBE ((frameBytes m ++ rest).take 2) = m.length := by
  simp [frameBytes, intToBytes2BE, intFromBytesBE]
  omega

theorem frame_drop (m rest : List Nat) :
    (frameBytes m ++ rest).drop 2 = m ++ rest := by
  simp [frameBytes, intToBytes2BE]

theorem encodeFrames_length (m : List Nat) (ms : List (List Nat)) :
    (encodeFrames (m :: ms)).length = 2 + m.length + (encodeFrames ms).length := by
  simp [encodeFrames_cons, frameBytes, intToBytes2BE]
  omega

/-- The decode loop, run on a well-framed file with enough fuel, yields the
successfully parsed payloads in file order. -/
theorem decodePlfGo_encode {α : Type} (parse : List Nat → Option α) :
    ∀ (ps : List (List Nat)) (fuel : Nat), (encodeFrames ps).length ≤ fuel →
      (∀ p ∈ ps, 0 < p.length ∧ p.length ≤ 65535) →
      decodePlfGo parse fuel (encodeFrames ps) = ps.filterMap parse := by
  intro ps
  induction ps with
  | nil =>
    intro fuel _ _
    cases fuel with
    | zero => rfl
    | succ f => simp [decodePlfGo, encodeFrames, intFromBytesBE]
  | cons p ps ih =>
    intro fuel hf hp
    have hp1 : 0 < p.length ∧ p.length ≤ 65535 := hp p (by simp)
    rw [encodeFrames_length] at hf
    cases fuel with
    | zero => omega
    | succ f =>
      rw [encodeFrames_cons]
      rw [decodePlfGo, frame_take p _ hp1.2, frame_drop, if_neg (by omega)]
      rw [List.take_left, List.drop_left]
      have ihf := ih f (by omega) (fun q hq => hp q (List.mem_cons_of_mem _ hq))
      cases hpp : parse p with
      | some r => simp [hpp, ihf, List.filterMap_cons]
      | none => simp [hpp, ihf, List.filterMap_cons]

/-- `TestDecoder._decode_plf` on a well-framed file. -/
theorem decodePlf_encode {α : Type} (parse : List Nat → Option α)
    (ps : List (List Nat)) (h : ∀ p ∈ ps, 0 < p.length ∧ p.length ≤ 65535) :
    decodePlf parse (encodeFrames ps) = ps.filterMap parse :=
  decodePlfGo_encode parse ps _ le_rfl h

theorem filterMap_roundtrip {R : Type} (f : R → Option R) (h : ∀ r, f r = some r) :
    ∀ l : List R, l.filterMap f = l := by
  intro l
  induction l with
  | nil => simp
  | cons r rs ih => simp [List.filterMap_cons, h, ih]

/-! ## C1: frame-log round-trip -/

/-- C1 (counterexample): a single well-formed envelope whose serialized payload
is empty (a protobuf message with all fields at their default values
serializes to zero bytes).  The writer stores it as the frame `00 00`, which
the decoder reads as the end-of-stream marker, so the decode of this 1-envelope
file yields 0 records, not 1 — refuting the claim as stated. -/
theorem claim_C1_counterexample :
    decodePlf (fun b => some b) (encodeFrames [([] : List Nat)]) = [] ∧
    [([] : List Nat)].length = 1 :=
  ⟨rfl, rfl⟩

/-- C1 (amended): for every sequence of envelopes whose serialized payloads are
nonempty and of length at most 65535 bytes, writing each as a 2-byte big-endian
length followed by the payload and then decoding the file in one pass yields
exactly the original records in order.  `ser`/`deser` abstract the protobuf
serialize/parse pair, assumed to round-trip (library code external to the
repository). -/
theorem claim_C1 {R : Type} (ser : R → List Nat) (deser : List Nat → Option R)
    (hrt : ∀ r, deser (ser r) = some r) (records : List R)
    (hlen : ∀ r ∈ records, 0 < (ser r).length ∧ (ser r).length ≤ 65535) :
    decodePlf deser (encodeFrames (records.map ser)) = records := by
  rw [decodePlf_encode deser (records.map ser)
    (by
      intro p hp
      obtain ⟨r, hr, rfl⟩ := List.mem_map.mp hp
      exact hlen r hr)]
  rw [List.filterMap_map]
  exact filterMap_roundtrip _ (fun r => hrt r) records

/-- C1 (witness): a concrete 3-record round-trip. -/
theorem claim_C1_witness :
    decodePlf (fun bs => if bs = [1] then some true else if bs = [2] then some false else none)
      (encodeFrames ([true, false, true].map (fun b => if b then [1] else [2]))) =
      [true, false, true] := by
  apply claim_C1
  · decide
  · decide

/-! ## C7: decode is partial-failure tolerant -/

/-- C7: decoding a well-framed file produces exactly the successfully parsed
frames, in file order; a frame whose payload fails to deserialize is skipped
and decoding continues with the next length prefix (the decoder is a total
function — no input aborts it). -/
theorem claim_C7 {α : Type} (parse : List Nat → Option α) (ps : List (List Nat))
    (h : ∀ p ∈ ps, 0 < p.length ∧ p.length ≤ 65535) :
    decodePlf parse (encodeFrames ps) = ps.filterMap parse :=
  decodePlf_encode parse ps h

/-- C7 (witness): the middle frame fails to parse and is skipped; the other two
frames survive in order. -/
theorem claim_C7_witness :
    decodePlf (fun b => if b = [7] then none else some b)
      (encodeFrames [[1], [7], [2]]) = [[1], [2]] := by
  rw [claim_C7 (fun b => if b = [7] then none else some b) [[1], [7], [2]] (by decide)]
  rfl

/-! ## C2: replay timing -/

/-- C2: the replay engine computes `pause = max(0.1, t_current - t_prev) / 1000`
seconds and sleeps `pause / rate` exactly when `pause` exceeds 2 seconds,
otherwise it does not sleep at all; concretely, for frames at header times
{0, 1000, 5000} ms it sleeps 0 s before the second frame and 4 s before the
third at rate 1, and 2 s before the third at rate 2. -/
theorem claim_C2 :
    (∀ (tp tc : ℤ) (r : ℚ),
        max (1 / 10 : ℚ) ((tc : ℚ) - (tp : ℚ)) / 1000 ≤ 2 → replaySleep tp tc r = 0) ∧
    (∀ (tp tc : ℤ) (r : ℚ),
        2 < max (1 / 10 : ℚ) ((tc : ℚ) - (tp : ℚ)) / 1000 →
        replaySleep tp tc r = (max (1 / 10 : ℚ) ((tc : ℚ) - (tp : ℚ)) / 1000) / r) ∧
    replaySleep 0 1000 1 = 0 ∧
    replaySleep 1000 5000 1 = 4 ∧
    replaySleep 1000 5000 2 = 2 := by
  refine ⟨fun tp tc r h => ?_, fun tp tc r h => ?_, ?_, ?_, ?_⟩
  · rw [replaySleep, if_neg (not_lt.mpr h)]
  · rw [replaySleep, if_pos h]
  · norm_num [replaySleep, max_def]
  · norm_num [replaySleep, max_def]
  · norm_num [replaySleep, max_def]

/-- C2 (witness): a 2100 ms gap exceeds the 2 s threshold, so the engine sleeps
2.1 s at rate 1. -/
theorem claim_C2_witness : replaySleep 0 2100 1 = 21 / 10 := by
  have h := claim_C2.2.1 0 2100 1 (by norm_num [max_def])
  rw [h]
  norm_num [max_def]

/-! ## C9: replay publishes N frames but counts N - 1 -/

/-- The replay loop on a well-framed remainder: publishes the current message
and every following frame, incrementing the counter once per following frame. -/
theorem replayGoF_encode (sym : List Nat → List Char) :
    ∀ (ps : List (List Nat)) (fuel : Nat) (cur : List Nat) (count : Nat),
      (encodeFrames ps).length ≤ fuel →
      (∀ p ∈ ps, 0 < p.length ∧ p.length ≤ 65535) →
      replayGoF sym fuel cur (encodeFrames ps) count =
        ((cur :: ps).map (fun p => (sym p, p)), count + ps.length) := by
  intro ps
  induction ps with
  | nil =>
    intro fuel cur count _ _
    cases fuel with
    | zero => simp [replayGoF, encodeFrames]
    | succ f => simp [replayGoF, encodeFrames, intFromBytesBE]
  | cons p ps ih =>
    intro fuel cur count hf hp
    have hp1 : 0 < p.length ∧ p.length ≤ 65535 := hp p (by simp)
    rw [encodeFrames_length] at hf
    cases fuel with
    | zero => omega
    | succ f =>
      rw [encodeFrames_cons]
      rw [replayGoF, frame_take p _ hp1.2, frame_drop]
      rw [if_neg (by omega)]
      rw [List.take_left, List.drop_left]
      rw [ih f p (count + 1) (by omega) (fun q hq => hp q (List.mem_cons_of_mem _ hq))]
      simp
      omega

/-- C9: replaying a log of N ≥ 1 well-formed frames publishes all N payloads in
file order, each on the topic given by its symbol field, while the counter
accrues only N - 1 (the first frame is never counted); `getMessageCount` then
returns N - 1 and resets the counter, so an immediately following call
returns 0. -/
theorem claim_C9 (sym : List Nat → List Char) (ps : List (List Nat))
    (hne : ps ≠ []) (h : ∀ p ∈ ps, 0 < p.length ∧ p.length ≤ 65535) :
    (replayRun sym (encodeFrames ps)).1 = ps.map (fun p => (sym p, p)) ∧
    (replayRun sym (encodeFrames ps)).2 = ps.length - 1 ∧
    getMessageCount ((replayRun sym (encodeFrames ps)).2) = (ps.length - 1, 0) ∧
    getMessageCount (getMessageCount ((replayRun sym (encodeFrames ps)).2)).2 = (0, 0) := by
  obtain ⟨p, ps', rfl⟩ := List.exists_cons_of_ne_nil hne
  have hp1 : 0 < p.length ∧ p.length ≤ 65535 := h p (by simp)
  rw [replayRun, replayGo, encodeFrames_cons, frame_take p _ hp1.2, frame_drop]
  rw [List.take_left, List.drop_left]
  rw [replayGoF_encode sym ps' _ p 0 le_rfl
    (fun q hq => h q (List.mem_cons_of_mem _ hq))]
  simp [getMessageCount]

/-- C9 (witness): a concrete 3-frame log — 3 publications, count 2, then 0. -/
theorem claim_C9_witness :
    (replayRun (fun _ => ['A']) (encodeFrames [[1], [2], [3]])).1 =
      [(['A'], [1]), (['A'], [2]), (['A'], [3])] ∧
    getMessageCount ((replayRun (fun _ => ['A']) (encodeFrames [[1], [2], [3]])).2) = (2, 0) := by
  have hh := claim_C9 (fun _ => ['A']) [[1], [2], [3]] (by decide) (by decide)
  exact ⟨hh.1.trans (by decide), hh.2.2.1.trans (by decide)⟩

/-! ## C5: unknown message type on endpoint open -/

/-- C5: opening an endpoint resolves the registry entry; an absent type name
yields `None` for both roles (the caller receives an unavailable endpoint and
`get_socket` returns normally after logging — no exception escapes), while a
present entry yields a publisher bound on the entry's port, and a subscriber
connected on the entry's port and subscribed to all topics. -/
theorem claim_C5 (d : SchemaDict) (m : List Char) :
    (lookupMsg d m = none →
      getSocket d m true false = none ∧ getSocket d m false true = none) ∧
    (∀ e, lookupMsg d m = some e →
      getSocket d m false true = some ⟨e.Port, false, true, false⟩ ∧
      getSocket d m true false = some ⟨e.Port, true, false, true⟩) := by
  constructor
  · intro h
    constructor <;> simp [getSocket, h]
  · intro e h
    constructor <;> simp [getSocket, h]

/-- C5 (witness): a one-entry registry; the known type gets a bound publisher
socket on port `7`, the unknown type gets `None`. -/
theorem claim_C5_witness :
    getSocket [(['A'], ⟨['A'], ['7'], ['c'], ['s']⟩)] ['A'] false true =
      some ⟨['7'], false, true, false⟩ ∧
    getSocket [(['A'], ⟨['A'], ['7'], ['c'], ['s']⟩)] ['B'] true false = none := by
  refine ⟨((claim_C5 _ ['A']).2 ⟨['A'], ['7'], ['c'], ['s']⟩ (by decide)).1, ?_⟩
  exact ((claim_C5 _ ['B']).1 (by decide)).1

/-! ## C6: write-error handling in the frame-log writer -/

/-- A writer whose handle is closed, or whose thread has died. -/
def writerStuck (s : WriterState) : Prop :=
  s.fp = some ⟨true⟩ ∨ s.alive = false

theorem writerStep_stuck (s : WriterState) (e : RecvEvent) (h : writerStuck s) :
    writerStuck (writerStep s e) ∧ (writerStep s e).contents = s.contents := by
  by_cases ha : s.alive = false
  · have hs : writerStep s e = s := by rw [writerStep.eq_def, if_pos ha]
    rw [hs]
    exact ⟨h, rfl⟩
  · rcases h with hfp | hfp
    · have hs : writerStep s e = { s with alive := false } := by
        rw [writerStep.eq_def, if_neg ha]
        cases e with
        | err => simp [handleWriteExc, hfp]
        | msg m => simp [handleWriteExc, hfp]
      rw [hs]
      exact ⟨Or.inr rfl, rfl⟩
    · exact absurd hfp ha

theorem writerFold_stuck (es : List RecvEvent) :
    ∀ s : WriterState, writerStuck s →
      writerStuck (es.foldl writerStep s) ∧ (es.foldl writerStep s).contents = s.contents := by
  induction es with
  | nil => exact fun s h => ⟨h, rfl⟩
  | cons e es ih =>
    intro s h
    have h1 := writerStep_stuck s e h
    have h2 := ih (writerStep s e) h1.1
    exact ⟨h2.1, h2.2.trans h1.2⟩

/-- C6 (counterexample): an error raised before the first successful write,
while `fp` is still `None`.  The `except` block then executes `fp.flush()` on
`None`, raising `AttributeError`, which propagates and kills the writer
thread: no handle is flushed or closed (none exists).  This refutes the claim
that at every error position — "including before the first successful write" —
the writer logs, flushes and closes the open file handle. -/
theorem claim_C6_counterexample :
    (writerRun [RecvEvent.err]).fp = none ∧ (writerRun [RecvEvent.err]).alive = false :=
  ⟨rfl, rfl⟩

/-- C6 (amended): when the error occurs after at least one successful write
(the handle exists and is open), the handler flushes and closes the handle,
the loop survives that iteration, the file contents are unchanged, and no
later event — message or error — ever changes the file contents for the rest
of the session (the next incoming message in fact kills the thread, when the
handler's `flush` of the already-closed file raises `ValueError`).  An error
arriving before the first successful write instead kills the thread inside
the handler with nothing to flush or close (see the counterexample). -/
theorem claim_C6 (es : List RecvEvent)
    (halive : (writerRun es).alive = true)
    (hopen : (writerRun es).fp = some ⟨false⟩) :
    (writerStep (writerRun es) RecvEvent.err).fp = some ⟨true⟩ ∧
    (writerStep (writerRun es) RecvEvent.err).alive = true ∧
    (writerStep (writerRun es) RecvEvent.err).contents = (writerRun es).contents ∧
    ∀ es2 : List RecvEvent,
      (es2.foldl writerStep (writerStep (writerRun es) RecvEvent.err)).contents =
        (writerRun es).contents := by
  have hstep : writerStep (writerRun es) RecvEvent.err =
      { writerRun es with fp := some ⟨true⟩ } := by
    rw [writerStep.eq_def, if_neg (by rw [halive]; simp)]
    simp [handleWriteExc, hopen]
  refine ⟨by rw [hstep], by rw [hstep]; exact halive, by rw [hstep], ?_⟩
  intro es2
  have hst := writerFold_stuck es2 (writerStep (writerRun es) RecvEvent.err)
    (Or.inl (by rw [hstep]))
  rw [hst.2, hstep]

/-- C6 (witness): one successful write, then an error (handle closed, contents
kept), then a further message and error that leave the file unchanged. -/
theorem claim_C6_witness :
    (writerStep (writerRun [RecvEvent.msg [1]]) RecvEvent.err).fp = some ⟨true⟩ ∧
    ([RecvEvent.msg [2], RecvEvent.err].foldl writerStep
        (writerStep (writerRun [RecvEvent.msg [1]]) RecvEvent.err)).contents =
      (writerRun [RecvEvent.msg [1]]).contents := by
  have hh := claim_C6 [RecvEvent.msg [1]] rfl rfl
  exact ⟨hh.1, hh.2.2.2 [RecvEvent.msg [2], RecvEvent.err]⟩

/-! ## Schema-registry helper lemmas -/

theorem parseMessage_none (b : List Char)
    (h : getParameter b tokMessage = none ∨ getParameter b tokPort = none ∨
      getParameter b tokChannel = none ∨ getParameter b tokSummary = none ∨
      firstMsgDef b = none) :
    parseMessage b = none := by
  cases h1 : getParameter b tokMessage <;>
  cases h2 : getParameter b tokPort <;>
  cases h3 : getParameter b tokChannel <;>
  cases h4 : getParameter b tokSummary <;>
  cases h5 : firstMsgDef b <;>
  simp_all [parseMessage]

theorem parseBlocks_none (b : List Char) :
    ∀ (bs : List (List Char)) (d : SchemaDict), b ∈ bs → isSubstr markerTok b = true →
      parseMessage b = none → parseBlocks bs d = none := by
  intro bs
  induction bs with
  | nil => intro d hb _ _; exact absurd hb (List.not_mem_nil b)
  | cons c cs ih =>
    intro d hb hm hp
    rcases List.mem_cons.mp hb with rfl | hb'
    · simp [parseBlocks, hm, hp]
    · by_cases hc : isSubstr markerTok c
      · cases hpc : parseMessage c with
        | none => simp [parseBlocks, hc, hpc]
        | some te =>
          simp only [parseBlocks, hc, if_true, hpc]
          exact ih _ hb' hm hp
      · simp only [parseBlocks, hc, if_false, Bool.false_eq_true]
        exact ih _ hb' hm hp

theorem dictInsert_fresh (d : SchemaDict) (k : List Char) (v : SchemaEntry)
    (h : ∀ p ∈ d, p.1 ≠ k) : dictInsert d k v = d ++ [(k, v)] := by
  have hc : d.any (fun p => p.1 == k) = false := by
    rw [List.any_eq_false]
    intro p hp
    simpa using h p hp
  rw [dictInsert, hc]
  simp

theorem markedParses_cons_marked (b : List Char) (bs : List (List Char))
    (hm : isSubstr markerTok b = true) (te : List Char × SchemaEntry)
    (hte : parseMessage b = some te) :
    markedParses (b :: bs) = te :: markedParses bs := by
  simp [markedParses, List.filter_cons, hm, List.filterMap_cons, hte]

theorem markedParses_cons_unmarked (b : List Char) (bs : List (List Char))
    (hm : isSubstr markerTok b = false) :
    markedParses (b :: bs) = markedParses bs := by
  simp [markedParses, List.filter_cons, hm]

/-- The `_parse_proto` loop on blocks that all parse, with pairwise-distinct
type names fresh for the accumulated dictionary: every marked block appends
its entry in order. -/
theorem parseBlocks_ok :
    ∀ (bs : List (List Char)) (d : SchemaDict),
      (∀ b ∈ bs, isSubstr markerTok b = true → (parseMessage b).isSome = true) →
      ((markedParses bs).map Prod.fst).Nodup →
      (∀ k ∈ (markedParses bs).map Prod.fst, ∀ p ∈ d, p.1 ≠ k) →
      parseBlocks bs d = some (d ++ markedParses bs) := by
  intro bs
  induction bs with
  | nil => intro d _ _ _; simp [parseBlocks, markedParses]
  | cons b bs ih =>
    intro d h1 h2 h3
    by_cases hm : isSubstr markerTok b = true
    · obtain ⟨te, hte⟩ := Option.isSome_iff_exists.mp (h1 b (List.mem_cons_self b bs) hm)
      rw [markedParses_cons_marked b bs hm te hte] at h2 h3 ⊢
      rw [List.map_cons] at h2 h3
      have hnotin := (List.nodup_cons.mp h2).1
      simp only [parseBlocks, hm, if_true, hte]
      rw [dictInsert_fresh d te.1 te.2 (h3 te.1 (List.mem_cons_self _ _))]
      rw [ih (d ++ [(te.1, te.2)]) (fun b' hb' => h1 b' (List.mem_cons_of_mem _ hb'))
        (List.nodup_cons.mp h2).2 ?_]
      · simp
      · intro k hk p hp
        rcases List.mem_append.mp hp with hpd | hpe
        · exact h3 k (List.mem_cons_of_mem _ hk) p hpd
        · have hp' : p = (te.1, te.2) := by simpa using hpe
          rw [hp']
          intro heq
          exact hnotin (heq ▸ hk)
    · have hmf : isSubstr markerTok b = false := by simpa using hm
      rw [markedParses_cons_unmarked b bs hmf] at h2 h3 ⊢
      simp only [parseBlocks, hmf, if_false, Bool.false_eq_true]
      exact ih d (fun b' hb' => h1 b' (List.mem_cons_of_mem _ hb')) h2 h3

theorem length_filterMap_isSome {α β : Type} (f : α → Option β) :
    ∀ l : List α, (∀ x ∈ l, (f x).isSome = true) → (l.filterMap f).length = l.length := by
  intro l
  induction l with
  | nil => simp
  | cons a l ih =>
    intro h
    obtain ⟨b, hb⟩ := Option.isSome_iff_exists.mp (h a (by simp))
    simp [List.filterMap_cons, hb, ih (fun x hx => h x (List.mem_cons_of_mem _ hx))]

/-! ## C3: schema extraction counts -/

/-- C3 (counterexample): `c3bad` has exactly 2 marked blocks (and 0 unmarked),
yet registry construction succeeds with only 1 entry — the two blocks declare
the same type name `A`, and the dictionary write overwrites — and that entry's
`Port` is `"xyz"`, which does not parse as an integer.  Both halves of the
claim fail as stated. -/
theorem claim_C3_counterexample :
    ((msgBlocks c3bad).filter (fun b => isSubstr markerTok b)).length = 2 ∧
    (parseProto c3bad).isSome = true ∧
    ((parseProto c3bad).getD []).length = 1 ∧
    ∀ te ∈ (parseProto c3bad).getD [], isNatStr te.2.Port = false := by
  exact ⟨by decide, by decide, by decide, by decide⟩

/-- C3 (amended): when every marked block parses, the declared type names of
the marked blocks are pairwise distinct, and each marked block's `@port`
parameter is a (nonempty) decimal-digit string, registry construction succeeds
and yields exactly one entry per marked block, in block order — K entries for
K marked blocks, with the unmarked blocks contributing nothing — and each
entry's `Port` parses as an integer.  (The code itself validates none of this:
duplicate type names silently overwrite, and `Port` is stored as raw text.) -/
theorem claim_C3 (s : List Char)
    (h1 : ∀ b ∈ msgBlocks s, isSubstr markerTok b = true → (parseMessage b).isSome = true)
    (h2 : ((markedParses (msgBlocks s)).map Prod.fst).Nodup)
    (h3 : ∀ b ∈ msgBlocks s,
      (parseMessage b).all (fun te => isNatStr te.2.Port) = true) :
    parseProto s = some (markedParses (msgBlocks s)) ∧
    (markedParses (msgBlocks s)).length =
      ((msgBlocks s).filter (fun b => isSubstr markerTok b)).length ∧
    ∀ te ∈ markedParses (msgBlocks s), isNatStr te.2.Port = true := by
  refine ⟨?_, ?_, ?_⟩
  · rw [parseProto]
    have hok := parseBlocks_ok (msgBlocks s) [] h1 h2
      (fun k _ p hp => absurd hp (List.not_mem_nil p))
    simpa using hok
  · rw [markedParses]
    exact length_filterMap_isSome parseMessage _
      (fun b hb => h1 b (List.mem_filter.mp hb).1 (List.mem_filter.mp hb).2)
  · intro te hte
    obtain ⟨b, hb, hbe⟩ := List.mem_filterMap.mp hte
    have := h3 b (List.mem_filter.mp hb).1
    rw [hbe] at this
    simpa using this

/-- C3 (witness): `c3text` has 1 marked and 1 unmarked block; construction
yields exactly 1 entry whose port is the digit string `7`. -/
theorem claim_C3_witness :
    parseProto c3text = some (markedParses (msgBlocks c3text)) ∧
    (markedParses (msgBlocks c3text)).length = 1 ∧
    ((msgBlocks c3text).filter (fun b => isSubstr markerTok b)).length = 1 ∧
    (msgBlocks c3text).length = 2 := by
  have hh := claim_C3 c3text (by decide) (by decide) (by decide)
  exact ⟨hh.1, by decide, by decide, by decide⟩

/-! ## C4: schema parse failure is fatal -/

/-- C4: if any block of the schema text carries the marker but has no
extractable message-definition type name or is missing one of the required
parameters (`message`, `port`, `channel`, `summary`), registry construction
fails — no partial registry is returned (the uncaught `IndexError` escapes
`ProtoParser.__init__`; the spec names this failure `SchemaParseError`). -/
theorem claim_C4 (s : List Char) (b : List Char) (hb : b ∈ msgBlocks s)
    (hm : isSubstr markerTok b = true)
    (hfail : getParameter b tokMessage = none ∨ getParameter b tokPort = none ∨
      getParameter b tokChannel = none ∨ getParameter b tokSummary = none ∨
      firstMsgDef b = none) :
    parseProto s = none := by
  rw [parseProto]
  exact parseBlocks_none b (msgBlocks s) [] hb hm (parseMessage_none b hfail)

/-- C4 (witness): a marked block with no `@port` parameter makes registry
construction fail. -/
theorem claim_C4_witness : parseProto c4text = none := by
  apply claim_C4 c4text c4block
  · decide
  · decide
  · exact Or.inr (Or.inl (by decide))

/-! ## C8: port uniqueness -/

/-- C8 (counterexample): `c8text` builds successfully — two entries with
distinct type names — but both entries carry `Port = "7"`: the code never
validates port uniqueness, so the claimed invariant fails for schemas whose
blocks reuse a port. -/
theorem claim_C8_counterexample :
    (parseProto c8text).isSome = true ∧
    ((parseProto c8text).getD []).length = 2 ∧
    ¬ (((parseProto c8text).getD []).map (fun te => te.2.Port)).Nodup := by
  exact ⟨by decide, by decide, by decide⟩

/-- C8 (amended): port values of the built registry are pairwise distinct
exactly when the schema text supplies them so; when every marked block parses,
their type names are pairwise distinct, and their `@port` parameters are
pairwise distinct, construction succeeds and the registry's `Port` values are
pairwise distinct.  (Uniqueness is a property of the schema document, not
enforced by registry construction.) -/
theorem claim_C8 (s : List Char)
    (h1 : ∀ b ∈ msgBlocks s, isSubstr markerTok b = true → (parseMessage b).isSome = true)
    (h2 : ((markedParses (msgBlocks s)).map Prod.fst).Nodup)
    (h4 : ((markedParses (msgBlocks s)).map (fun te => te.2.Port)).Nodup) :
    ∃ d, parseProto s = some d ∧ (d.map (fun te => te.2.Port)).Nodup := by
  refine ⟨markedParses (msgBlocks s), ?_, h4⟩
  rw [parseProto]
  have hok := parseBlocks_ok (msgBlocks s) [] h1 h2
    (fun k _ p hp => absurd hp (List.not_mem_nil p))
  simpa using hok

/-- C8 (witness): the one-marked-block schema builds a registry whose ports
are trivially pairwise distinct. -/
theorem claim_C8_witness :
    ∃ d, parseProto c3text = some d ∧ (d.map (fun te => te.2.Port)).Nodup :=
  claim_C8 c3text (by decide) (by decide) (by decide)

/-! ## C10: broker API message attribute access -/

/-- C10 (counterexample): a truthy list-valued field (such as `legs` on an
order payload).  The claim says a value that does not convert to a float is
returned unchanged, but `float(value)` on a list raises `TypeError`, which the
code does not catch (`except ValueError` only), so attribute access raises
instead of returning the value. -/
theorem claim_C10_counterexample :
    apiGetattr [(("legs").toList, PyVal.pylist [PyVal.pyint 1])] ("legs").toList =
      AttrResult.typeError := rfl

/-- C10 (amended): attribute access on a raw payload field behaves as claimed
except on truthy values that `float` rejects with `TypeError`: an absent name
raises `KeyError`; a falsy value is returned unchanged; a truthy value under a
name ending in `_at` is parsed as a timestamp; a truthy boolean is returned
unchanged; a truthy value accepted by `float` is returned as that float; a
truthy string rejected by `float` (`ValueError`) is returned unchanged; but a
truthy value on which `float` raises `TypeError` (`None` cannot be truthy, so
in practice a container such as a list) propagates that `TypeError` rather
than being returned unchanged. -/
theorem claim_C10 (raw : List (List Char × PyVal)) (name : List Char) :
    (raw.find? (fun p => p.1 == name) = none → apiGetattr raw name = .keyError) ∧
    ∀ p, raw.find? (fun p0 => p0.1 == name) = some p →
      (truthy p.2 = false → apiGetattr raw name = .ok p.2) ∧
      (truthy p.2 = true → endsWithAt name = true → apiGetattr raw name = .timestamp p.2) ∧
      (truthy p.2 = true → endsWithAt name = false → isPyBool p.2 = true →
        apiGetattr raw name = .ok p.2) ∧
      (∀ q : ℚ, truthy p.2 = true → endsWithAt name = false → isPyBool p.2 = false →
        floatConv p.2 = .ok q → apiGetattr raw name = .ok (.pyfloat q)) ∧
      (truthy p.2 = true → endsWithAt name = false → isPyBool p.2 = false →
        floatConv p.2 = .valueError → apiGetattr raw name = .ok p.2) ∧
      (truthy p.2 = true → endsWithAt name = false → isPyBool p.2 = false →
        floatConv p.2 = .typeError → apiGetattr raw name = .typeError) := by
  constructor
  · intro h
    simp [apiGetattr, h]
  · intro p hp
    refine ⟨?_, ?_, ?_, ?_, ?_, ?_⟩
    · intro ht
      simp [apiGetattr, hp, ht]
    · intro ht hat
      simp [apiGetattr, hp, ht, hat]
    · intro ht hat hb
      simp [apiGetattr, hp, ht, hat, hb]
    · intro q ht hat hb hf
      simp [apiGetattr, hp, ht, hat, hb, hf]
    · intro ht hat hb hf
      simp [apiGetattr, hp, ht, hat, hb, hf]
    · intro ht hat hb hf
      simp [apiGetattr, hp, ht, hat, hb, hf]

/-- C10 (witness): the numeric string field `qty = "2.5"` is converted to the
float 2.5. -/
theorem claim_C10_witness :
    apiGetattr [(("qty").toList, PyVal.pystr ("2.5").toList)] ("qty").toList =
      AttrResult.ok (PyVal.pyfloat (5 / 2)) := by
  have hh := (claim_C10 [(("qty").toList, PyVal.pystr ("2.5").toList)] ("qty").toList).2
    (("qty").toList, PyVal.pystr ("2.5").toList) rfl
  refine hh.2.2.2.1 (5 / 2) rfl rfl rfl ?_
  simp +decide [floatConv, strFloat?, digitsToNat]
  norm_num

end Neptune
